import Mathlib

/-!
Verification development for the Black Sheep payment backend
(src/server.js). The definitions below are a shallow embedding of the
functions of the source file: pure helpers become Lean functions, the
express handlers become functions from a request value (plus the state of
the external systems they consult) to the response they compute, and the
fallible external calls (Stripe catalog, Shopify profile store) are
modelled with Except/Option arguments carrying either the remote data or
the thrown error. JavaScript numbers arriving from JSON are modelled as
rationals; Stripe minor-unit amounts are integers.
-/

namespace Server

/-- A JavaScript request-body field as the handler's type checks observe
it: absent (undefined/null), a string, or present with a non-string type.
Mirrors the destructured fields of req.body in src/server.js. -/
inductive JsVal
  | absent
  | str (s : String)
  | nonString
deriving DecidableEq

/-- The check pattern (!x || typeof x !== 'string') applied to
payment_method_id and product_id: it passes exactly for non-empty strings
(the empty string is falsy in JavaScript, so !x rejects it). -/
def presentString : JsVal → Bool
  | JsVal.str s => decide (s ≠ "")
  | _ => false

/-- The string carried by a JsVal (used only after presentString holds). -/
def jsValStr : JsVal → String
  | JsVal.str s => s
  | _ => ""

/-- JavaScript regex \s on the ASCII range: space, tab, LF, VT, FF, CR. -/
def isJsSpace (c : Char) : Bool :=
  c == ' ' || c == '\t' || c == '\n' || c == '\x0b' || c == '\x0c' || c == '\r'

/-- The email regex of isValidEmail in src/server.js, written
/^[^\s@]+@[^\s@]+\.[^\s@]+$/ there: a non-empty run of non-space non-at
characters, a single at sign, then a domain part that is non-space,
at-free, and contains a dot with at least one character on each side. -/
def matchesEmailRegex (email : String) : Bool :=
  let cs := email.toList
  let p := cs.span (fun c => !(c == '@'))
  match p.2 with
  | [] => false
  | _ :: domain =>
    !p.1.isEmpty && p.1.all (fun c => !isJsSpace c) &&
    !domain.isEmpty && domain.all (fun c => !isJsSpace c && !(c == '@')) &&
    ((domain.drop 1).dropLast.contains '.')

/-- isValidEmail from src/server.js: the regex test plus length at most
254 (String.length counts code points, matching the UTF-16 length for the
basic-plane strings involved here). -/
def isValidEmail (email : String) : Bool :=
  matchesEmailRegex email && decide (email.length ≤ 254)

/-- isValidAmount from src/server.js: Number.isInteger(amount) &&
amount > 0 && amount <= 100000. JSON numbers are modelled as rationals;
Number.isInteger corresponds to denominator one. -/
def isValidAmount (amount : ℚ) : Bool :=
  decide (amount.den = 1) && decide (0 < amount) && decide (amount ≤ 100000)

/-- A product as returned by the catalog (stripe.products.retrieve). -/
structure CatalogProduct where
  name : String
  active : Bool
deriving DecidableEq

/-- A price row as returned by stripe.prices.list; the query in the source
already restricts to active prices with limit 10, so the modelled catalog
directly supplies that query's result. -/
structure CatalogPrice where
  unit_amount : ℚ
  currency : String
deriving DecidableEq

/-- The external catalog: each lookup either returns data or fails with
the thrown error message (unknown product, network failure, ...). -/
structure Catalog where
  retrieveProduct : String → Except String CatalogProduct
  listActivePrices : String → Except String (List CatalogPrice)

/-- Result of validateProduct: a successful validation carrying the
resolved product name and matched price amount, or the caught error. -/
inductive ValidationOutcome
  | valid (productName : String) (priceAmount : ℚ)
  | invalid (err : String)
deriving DecidableEq

/-- The hard-coded testProducts table of validateProduct's test-mode
branch in src/server.js. -/
def testProducts (productId : String) : Option (String × ℚ) :=
  if productId = "prod_SfYipzYOk3rdyN" then some ("Black Sheep Business Program", 4700)
  else if productId = "prod_SfYjjur56WyxMI" then some ("Premium 1-on-1 Coaching", 29700)
  else if productId = "prod_SfdrwTwTQpDt5a" then some ("Software", 9700)
  else none

/-- The strict retrieve-product / list-prices / match-amount sequence that
appears both as the live branch and as the test-mode inner try of
validateProduct. The second component counts catalog calls made. A thrown
error becomes an invalid result (the surrounding catch). The source
interpolates the amount into the price-mismatch message; the text is
abstracted to a fixed string here. -/
def strictValidate (cat : Catalog) (productId : String) (amount : ℚ) :
    ValidationOutcome × ℕ :=
  match cat.retrieveProduct productId with
  | Except.error e => (ValidationOutcome.invalid e, 1)
  | Except.ok product =>
    if !product.active then (ValidationOutcome.invalid "Product is not active", 1)
    else match cat.listActivePrices productId with
      | Except.error e => (ValidationOutcome.invalid e, 2)
      | Except.ok prices =>
        if prices.isEmpty then
          (ValidationOutcome.invalid "No active prices found for product", 2)
        else match prices.find? (fun p => decide (p.unit_amount = amount) && decide (p.currency = "usd")) with
          | some validPrice => (ValidationOutcome.valid product.name validPrice.unit_amount, 2)
          | none => (ValidationOutcome.invalid "Amount does not match any valid price for this product", 2)

/-- validateProduct from src/server.js. Test mode (the key contains
"test"): a known test product with the expected amount validates with a
mock and no catalog call; every other test-mode case runs the strict
sequence but replaces any failure with a mock successful validation that
trusts the caller-supplied amount ("Test Product" fallback). Live mode
returns the strict sequence's result, so its failures surface. -/
def validateProduct (isTestMode : Bool) (cat : Catalog) (productId : String) (amount : ℚ) :
    ValidationOutcome × ℕ :=
  if isTestMode then
    match testProducts productId with
    | some tp =>
      if tp.2 = amount then (ValidationOutcome.valid tp.1 amount, 0)
      else match strictValidate cat productId amount with
        | (ValidationOutcome.valid n p, k) => (ValidationOutcome.valid n p, k)
        | (ValidationOutcome.invalid _, k) => (ValidationOutcome.valid "Test Product" amount, k)
    | none =>
      match strictValidate cat productId amount with
      | (ValidationOutcome.valid n p, k) => (ValidationOutcome.valid n p, k)
      | (ValidationOutcome.invalid _, k) => (ValidationOutcome.valid "Test Product" amount, k)
  else strictValidate cat productId amount

/-- Response of the admission portion of POST /process-payment: a 400
with an error body, or control passing on to the charge path. -/
inductive GateResponse
  | badRequest (msg : String)
  | proceed
deriving DecidableEq

/-- What the admission gate did: the response, the number of catalog
calls made before the admission decision, and whether the handler went on
to the customer-handling and payment-intent-creation path. -/
structure GateResult where
  response : GateResponse
  catalogCalls : ℕ
  chargeAttempted : Bool
deriving DecidableEq

/-- The request body of POST /process-payment as destructured in the
source. email and amount are modelled at the types their validators
inspect (non-string emails coerce to strings the regex rejects). -/
structure PaymentRequest where
  payment_method_id : JsVal
  email : String
  amount : ℚ
  product_id : JsVal

/-- The admission prefix of the POST /process-payment handler in
src/server.js: the four field validations in source order, first failure
returning 400 with the source's message before any catalog or charge
call, then the catalog validation, whose failure returns 400 with the
validation error; on success the handler proceeds to customer handling
and payment-intent creation (chargeAttempted abstracts that charge path). -/
def processPayment (isTestMode : Bool) (cat : Catalog) (req : PaymentRequest) : GateResult :=
  if !presentString req.payment_method_id then
    ⟨GateResponse.badRequest "Invalid payment method", 0, false⟩
  else if !isValidEmail req.email then
    ⟨GateResponse.badRequest "Invalid email address", 0, false⟩
  else if !isValidAmount req.amount then
    ⟨GateResponse.badRequest "Invalid amount", 0, false⟩
  else if !presentString req.product_id then
    ⟨GateResponse.badRequest "Invalid product", 0, false⟩
  else
    match validateProduct isTestMode cat (jsValStr req.product_id) req.amount with
    | (ValidationOutcome.invalid e, k) => ⟨GateResponse.badRequest e, k, false⟩
    | (ValidationOutcome.valid _ _, k) => ⟨GateResponse.proceed, k, true⟩

/-- Claim C3: the admission gate of POST /process-payment applies its
validations in the fixed source order — payment-method reference, email
grammar, amount bounds, product id, then the catalog checks — with the
first failure winning, and every request whose email fails the address
grammar receives a 400 INVALID_INPUT response with zero catalog calls and
no charge attempt. -/
theorem admission_gate_order (isTestMode : Bool) (cat : Catalog) (req : PaymentRequest) :
    (presentString req.payment_method_id = false →
      processPayment isTestMode cat req =
        ⟨GateResponse.badRequest "Invalid payment method", 0, false⟩)
    ∧ (presentString req.payment_method_id = true → isValidEmail req.email = false →
      processPayment isTestMode cat req =
        ⟨GateResponse.badRequest "Invalid email address", 0, false⟩)
    ∧ (presentString req.payment_method_id = true → isValidEmail req.email = true →
      isValidAmount req.amount = false →
      processPayment isTestMode cat req = ⟨GateResponse.badRequest "Invalid amount", 0, false⟩)
    ∧ (presentString req.payment_method_id = true → isValidEmail req.email = true →
      isValidAmount req.amount = true → presentString req.product_id = false →
      processPayment isTestMode cat req = ⟨GateResponse.badRequest "Invalid product", 0, false⟩)
    ∧ (isValidEmail req.email = false →
      (processPayment isTestMode cat req).catalogCalls = 0
      ∧ (processPayment isTestMode cat req).chargeAttempted = false
      ∧ ∃ msg, (processPayment isTestMode cat req).response = GateResponse.badRequest msg) := by
  refine ⟨?_, ?_, ?_, ?_, ?_⟩
  · intro h1
    simp [processPayment, h1]
  · intro h1 h2
    simp [processPayment, h1, h2]
  · intro h1 h2 h3
    simp [processPayment, h1, h2, h3]
  · intro h1 h2 h3 h4
    simp [processPayment, h1, h2, h3, h4]
  · intro h2
    by_cases h1 : presentString req.payment_method_id
    · refine ⟨?_, ?_, "Invalid email address", ?_⟩ <;> simp [processPayment, h1, h2]
    · refine ⟨?_, ?_, "Invalid payment method", ?_⟩ <;>
        simp [processPayment, Bool.of_not_eq_true h1]

/-- Witness for Claim C3 at a concrete request: the malformed email
"not-an-email" is rejected with the source's message, zero catalog calls
and no charge attempt. -/
theorem admission_gate_order_witness :
    processPayment false ⟨fun _ => Except.error "down", fun _ => Except.error "down"⟩
      ⟨JsVal.str "pm_1", "not-an-email", 4700, JsVal.str "prod_1"⟩ =
      ⟨GateResponse.badRequest "Invalid email address", 0, false⟩ :=
  (admission_gate_order false ⟨fun _ => Except.error "down", fun _ => Except.error "down"⟩
    ⟨JsVal.str "pm_1", "not-an-email", 4700, JsVal.str "prod_1"⟩).2.1 (by decide) (by decide)

/-- A catalog whose only product is the known test product with a single
active 4700-cent price, used to exhibit test-mode fallback admission. -/
def mismatchCatalog : Catalog :=
  ⟨fun pid =>
    if pid = "prod_SfYipzYOk3rdyN" then Except.ok ⟨"Black Sheep Business Program", true⟩
    else Except.error "No such product",
   fun pid =>
    if pid = "prod_SfYipzYOk3rdyN" then Except.ok [⟨4700, "usd"⟩]
    else Except.error "No such product"⟩

/-- Counterexample to Claim C4 as stated: with a test-mode key, a request
for the known product with amount 9999 — which matches no active catalog
price (the only one is 4700) — is still admitted, and the handler goes on
to the charge path, because validateProduct's test-mode catch replaces
the price-mismatch failure with a mock successful validation. -/
theorem price_mismatch_admitted_in_test_mode :
    (processPayment true mismatchCatalog
      ⟨JsVal.str "pm_1", "a@x.com", 9999, JsVal.str "prod_SfYipzYOk3rdyN"⟩).chargeAttempted = true
    ∧ (processPayment true mismatchCatalog
      ⟨JsVal.str "pm_1", "a@x.com", 9999, JsVal.str "prod_SfYipzYOk3rdyN"⟩).response =
        GateResponse.proceed := by
  decide

/-- Claim C4 (amended): in live mode, for every valid request whose
amount matches no currently-active listed usd price of its product, the
gate answers 400 with the validation error and issues no charge attempt. -/
theorem live_price_mismatch_rejected (cat : Catalog) (req : PaymentRequest)
    (prod : CatalogProduct) (prices : List CatalogPrice)
    (hpm : presentString req.payment_method_id = true)
    (hem : isValidEmail req.email = true)
    (ham : isValidAmount req.amount = true)
    (hpid : presentString req.product_id = true)
    (hret : cat.retrieveProduct (jsValStr req.product_id) = Except.ok prod)
    (hact : prod.active = true)
    (hpr : cat.listActivePrices (jsValStr req.product_id) = Except.ok prices)
    (hmis : ∀ p ∈ prices, ¬(p.unit_amount = req.amount ∧ p.currency = "usd")) :
    ∃ err, validateProduct false cat (jsValStr req.product_id) req.amount =
        (ValidationOutcome.invalid err, 2)
      ∧ processPayment false cat req = ⟨GateResponse.badRequest err, 2, false⟩ := by
  have hfind : prices.find?
      (fun p => decide (p.unit_amount = req.amount) && decide (p.currency = "usd")) = none := by
    rw [List.find?_eq_none]
    intro p hp
    have hne := hmis p hp
    by_cases h1 : p.unit_amount = req.amount
    · have h2 : p.currency ≠ "usd" := fun hc => hne ⟨h1, hc⟩
      simp [h1, h2]
    · simp [h1]
  by_cases hemp : prices.isEmpty
  · have hval : validateProduct false cat (jsValStr req.product_id) req.amount =
        (ValidationOutcome.invalid "No active prices found for product", 2) := by
      simp [validateProduct, strictValidate, hret, hact, hpr, hemp]
    exact ⟨_, hval, by simp [processPayment, hpm, hem, ham, hpid, hval]⟩
  · have hval : validateProduct false cat (jsValStr req.product_id) req.amount =
        (ValidationOutcome.invalid "Amount does not match any valid price for this product", 2) := by
      simp [validateProduct, strictValidate, hret, hact, hpr, hemp, hfind]
    exact ⟨_, hval, by simp [processPayment, hpm, hem, ham, hpid, hval]⟩

/-- Witness for the amended Claim C4: live mode, product with sole active
price 4700, requested amount 100 — rejected, no charge attempt. -/
theorem live_price_mismatch_rejected_witness :
    ∃ err, validateProduct false mismatchCatalog
        (jsValStr (JsVal.str "prod_SfYipzYOk3rdyN")) (100 : ℚ) =
        (ValidationOutcome.invalid err, 2)
      ∧ processPayment false mismatchCatalog
          ⟨JsVal.str "pm_1", "a@x.com", 100, JsVal.str "prod_SfYipzYOk3rdyN"⟩ =
          ⟨GateResponse.badRequest err, 2, false⟩ :=
  live_price_mismatch_rejected mismatchCatalog
    ⟨JsVal.str "pm_1", "a@x.com", 100, JsVal.str "prod_SfYipzYOk3rdyN"⟩
    ⟨"Black Sheep Business Program", true⟩ [⟨4700, "usd"⟩]
    (by decide) (by decide) (by decide) (by decide) (by rfl) (by decide) (by rfl)
    (by decide)

/-- Claim C5: when the catalog product lookup itself fails during
admission, live mode surfaces the failure as a rejection (400 with the
error, no charge attempt), while test mode falls back to a successful
validation that trusts the caller-supplied amount and carries the
fallback "Test Product" data. -/
theorem catalog_failure_policy (cat : Catalog) (req : PaymentRequest) (pid e : String)
    (hfail : cat.retrieveProduct pid = Except.error e)
    (hpm : presentString req.payment_method_id = true)
    (hem : isValidEmail req.email = true)
    (ham : isValidAmount req.amount = true)
    (hpid : req.product_id = JsVal.str pid)
    (hne : pid ≠ "") :
    validateProduct false cat pid req.amount = (ValidationOutcome.invalid e, 1)
    ∧ processPayment false cat req = ⟨GateResponse.badRequest e, 1, false⟩
    ∧ (testProducts pid = none →
        validateProduct true cat pid req.amount =
          (ValidationOutcome.valid "Test Product" req.amount, 1)) := by
  have hval : validateProduct false cat pid req.amount = (ValidationOutcome.invalid e, 1) := by
    simp [validateProduct, strictValidate, hfail]
  refine ⟨hval, ?_, ?_⟩
  · have hps : presentString req.product_id = true := by
      rw [hpid]
      simpa [presentString] using hne
    have hstr : jsValStr req.product_id = pid := by rw [hpid]; rfl
    simp [processPayment, hpm, hem, ham, hps, hstr, hval]
  · intro htp
    simp [validateProduct, strictValidate, hfail, htp]

/-- Witness for Claim C5: a catalog that throws "No such product" — live
mode rejects, test mode falls back to a trusting validation. -/
theorem catalog_failure_policy_witness :
    validateProduct false ⟨fun _ => Except.error "No such product", fun _ => Except.ok []⟩
      "prod_X" (4700 : ℚ) = (ValidationOutcome.invalid "No such product", 1)
    ∧ processPayment false ⟨fun _ => Except.error "No such product", fun _ => Except.ok []⟩
        ⟨JsVal.str "pm_1", "a@x.com", 4700, JsVal.str "prod_X"⟩ =
        ⟨GateResponse.badRequest "No such product", 1, false⟩
    ∧ (testProducts "prod_X" = none →
        validateProduct true ⟨fun _ => Except.error "No such product", fun _ => Except.ok []⟩
          "prod_X" (4700 : ℚ) = (ValidationOutcome.valid "Test Product" 4700, 1)) :=
  catalog_failure_policy ⟨fun _ => Except.error "No such product", fun _ => Except.ok []⟩
    ⟨JsVal.str "pm_1", "a@x.com", 4700, JsVal.str "prod_X"⟩ "prod_X" "No such product"
    rfl (by decide) (by decide) (by decide) rfl (by decide)

/-- A payment intent as seen in the processor's history listing:
creation time in seconds, status, and the is_main_purchase metadata flag
(true exactly when metadata.is_main_purchase === 'true'). -/
structure StripePaymentIntent where
  created : ℤ
  status : String
  isMainPurchase : Bool
deriving DecidableEq

/-- The stripe.paymentIntents.list call of isReturningCustomer: given the
identity's full history sorted most-recent-first, the processor returns
the intents created strictly before the cutoff, truncated to the query's
limit of 10. -/
def stripeListCreatedBefore (history : List StripePaymentIntent) (lt : ℤ) :
    List StripePaymentIntent :=
  (history.filter (fun pi => decide (pi.created < lt))).take 10

/-- The body of isReturningCustomer after the list call returns: filter
to succeeded main purchases, take the first (most recent), and compare
the elapsed hours against 1. -/
def isReturningCustomerOnData (data : List StripePaymentIntent)
    (currentPurchaseTime : ℤ) : Bool :=
  let successfulPurchases :=
    data.filter (fun pi => decide (pi.status = "succeeded") && pi.isMainPurchase)
  match successfulPurchases with
  | [] => false
  | lastMainPurchase :: _ =>
    decide ((((currentPurchaseTime - lastMainPurchase.created : ℤ) : ℚ) / 3600) ≥ 1)

/-- isReturningCustomer from src/server.js: the history lookup may fail
(none), in which case the catch returns false; otherwise the query result
for created < currentPurchaseTime - 60 is examined. -/
def isReturningCustomer (lookup : Option (List StripePaymentIntent))
    (currentPurchaseTime : ℤ) : Bool :=
  match lookup with
  | none => false
  | some history =>
    isReturningCustomerOnData
      (stripeListCreatedBefore history (currentPurchaseTime - 60)) currentPurchaseTime

/-- The Returning-Customer Evaluator as the spec's words describe it
(named for refinement comparison with isReturningCustomer): consider all
successful primary purchases created strictly before T minus the
60-second guard, and return true iff the most recent of them is at least
3600 seconds before T; false when there is none. -/
def specReturningCustomer (history : List StripePaymentIntent) (t : ℤ) : Bool :=
  let priorPrimaries := history.filter (fun pi =>
    decide (pi.status = "succeeded") && pi.isMainPurchase && decide (pi.created < t - 60))
  match (priorPrimaries.map (fun pi => pi.created)).max? with
  | none => false
  | some c => decide (t - c ≥ 3600)

/-- The history refuting Claim C2 as stated: ten succeeded upsell intents
100 seconds ago crowd the limit-10 query window, hiding an old succeeded
primary purchase from two hours ago. -/
def crowdedHistory : List StripePaymentIntent :=
  List.replicate 10 ⟨9900, "succeeded", false⟩ ++ [⟨2800, "succeeded", true⟩]

/-- Counterexample to Claim C2 as stated: on crowdedHistory at time
T = 10000 the code returns false, while the claim's rule — the most
recent successful primary purchase before T - 60 sits 7200 ≥ 3600 seconds
in the past — demands true. The limit-10 history query drops the primary
purchase before the client-side filter runs. -/
theorem returning_customer_counterexample :
    isReturningCustomer (some crowdedHistory) 10000 = false
    ∧ specReturningCustomer crowdedHistory 10000 = true := by
  constructor
  · rfl
  · rfl

/-- Claim C2 (amended): the evaluator considers only the successful
primary purchases among the ten most recent intents created strictly
before T minus the 60-second guard (the processor query carries
limit 10); for a most-recent-first history it returns true iff the most
recent such purchase is at least 3600 seconds (1 hour) before T, false
when there is none, and false on lookup failure; in particular a sole
prior primary at T-3600 yields true, at T-3599 yields false, and an empty
history yields false. -/
theorem foldl_max_eq_self (x : ℤ) (l : List ℤ) (h : ∀ y ∈ l, y ≤ x) :
    l.foldl max x = x := by
  induction l generalizing x with
  | nil => rfl
  | cons y ys ih =>
    rw [List.foldl_cons, max_eq_left (h y (List.mem_cons_self y ys))]
    exact ih x (fun z hz => h z (List.mem_cons_of_mem y hz))

theorem isReturningCustomer_single_prior (t c : ℤ) (h : c < t - 60) :
    isReturningCustomer (some [⟨c, "succeeded", true⟩]) t =
      decide ((((t - c : ℤ) : ℚ) / 3600) ≥ 1) := by
  have hfil : stripeListCreatedBefore [⟨c, "succeeded", true⟩] (t - 60) =
      [⟨c, "succeeded", true⟩] := by
    simp [stripeListCreatedBefore, h]
  rw [isReturningCustomer, hfil, isReturningCustomerOnData]
  simp [List.filter]

theorem returning_customer_rule (history : List StripePaymentIntent) (t : ℤ)
    (hsorted : history.Pairwise (fun a b => b.created ≤ a.created)) :
    (isReturningCustomer (some history) t = true ↔
      ∃ c, (((stripeListCreatedBefore history (t - 60)).filter (fun pi =>
          decide (pi.status = "succeeded") && pi.isMainPurchase)).map
            (fun pi => pi.created)).max? = some c ∧ t - c ≥ 3600)
    ∧ isReturningCustomer none t = false
    ∧ isReturningCustomer (some [⟨t - 3600, "succeeded", true⟩]) t = true
    ∧ isReturningCustomer (some [⟨t - 3599, "succeeded", true⟩]) t = false
    ∧ isReturningCustomer (some []) t = false := by
  refine ⟨?_, rfl, ?_, ?_, rfl⟩
  · have hq : (stripeListCreatedBefore history (t - 60)).Pairwise
        (fun a b => b.created ≤ a.created) := by
      apply List.Pairwise.sublist _ hsorted
      exact (List.take_sublist _ _).trans (List.filter_sublist _)
    have hp : ((stripeListCreatedBefore history (t - 60)).filter (fun pi =>
        decide (pi.status = "succeeded") && pi.isMainPurchase)).Pairwise
        (fun a b => b.created ≤ a.created) :=
      List.Pairwise.sublist (List.filter_sublist _) hq
    rw [isReturningCustomer, isReturningCustomerOnData]
    cases hcase : (stripeListCreatedBefore history (t - 60)).filter (fun pi =>
        decide (pi.status = "succeeded") && pi.isMainPurchase) with
    | nil => simp [hcase]
    | cons hd tl =>
      rw [hcase] at hp
      have hall : ∀ x ∈ tl, x.created ≤ hd.created := fun x hx =>
        List.rel_of_pairwise_cons hp hx
      have hmax : ((hd :: tl).map (fun pi => pi.created)).max? = some hd.created := by
        rw [List.map_cons, List.max?_cons']
        congr 1
        apply foldl_max_eq_self
        intro y hy
        obtain ⟨z, hz, rfl⟩ := List.mem_map.mp hy
        exact hall z hz
      simp only [hcase, hmax]
      constructor
      · intro h
        refine ⟨hd.created, rfl, ?_⟩
        have h1 : (1 : ℚ) ≤ ((t - hd.created : ℤ) : ℚ) / 3600 := by
          simpa using h
        rw [le_div_iff₀ (by norm_num : (0:ℚ) < 3600), one_mul] at h1
        exact_mod_cast h1
      · rintro ⟨c, hc, hge⟩
        have hce : hd.created = c := Option.some.inj hc
        have h2 : (3600 : ℚ) ≤ ((t - hd.created : ℤ) : ℚ) := by
          rw [hce]; exact_mod_cast hge
        have h1 : (1 : ℚ) ≤ ((t - hd.created : ℤ) : ℚ) / 3600 := by
          rw [le_div_iff₀ (by norm_num : (0:ℚ) < 3600), one_mul]
          exact h2
        simpa using h1
  · rw [isReturningCustomer_single_prior t (t - 3600) (by omega),
      show (t - (t - 3600) : ℤ) = 3600 by omega]
    norm_num
  · rw [isReturningCustomer_single_prior t (t - 3599) (by omega),
      show (t - (t - 3599) : ℤ) = 3599 by omega]
    norm_num

/-- Witness for the amended Claim C2: instantiated at the empty (hence
sorted) history and T = 10000, the sole-prior-primary example conjunct
gives the concrete returning verdict. -/
theorem returning_customer_rule_witness :
    isReturningCustomer (some [⟨(10000 : ℤ) - 3600, "succeeded", true⟩]) 10000 = true :=
  (returning_customer_rule [] 10000 List.Pairwise.nil).2.2.1

/-- Accumulator recursion behind jsSetDedup: keep the first occurrence
of each element, tracking the elements already emitted. -/
def dedupAux (seen : List String) : List String → List String
  | [] => []
  | a :: t => if a ∈ seen then dedupAux seen t else a :: dedupAux (a :: seen) t

/-- JavaScript's [...new Set(list)]: duplicates removed, first
occurrences kept in order. -/
def jsSetDedup (l : List String) : List String := dedupAux [] l

/-- The tag computation of createOrUpdateShopifyCustomer's
existing-customer branch in src/server.js: newTags is the base customer
tag plus the product-specific tag, allTags is the set-spread of existing
and new tags, and the returning-customer tag is pushed when the purchase
is a true returning one and the tag is not already present. -/
def computeAllTags (existingTags : List String) (productSpecificTag : String)
    (isReturning : Bool) : List String :=
  let newTags := ["customer", productSpecificTag]
  let allTags := jsSetDedup (existingTags ++ newTags)
  if isReturning = true ∧ "returning-customer" ∉ allTags then
    allTags ++ ["returning-customer"]
  else allTags

theorem mem_dedupAux (a : String) : ∀ (l seen : List String),
    a ∈ dedupAux seen l ↔ a ∈ l ∧ a ∉ seen := by
  intro l
  induction l with
  | nil => intro seen; simp [dedupAux]
  | cons c t ih =>
    intro seen
    by_cases hc : c ∈ seen
    · rw [dedupAux, if_pos hc, ih]
      constructor
      · rintro ⟨h1, h2⟩
        exact ⟨List.mem_cons_of_mem c h1, h2⟩
      · rintro ⟨h1, h2⟩
        rcases List.mem_cons.mp h1 with rfl | h1
        · exact absurd hc h2
        · exact ⟨h1, h2⟩
    · rw [dedupAux, if_neg hc, List.mem_cons, ih]
      constructor
      · rintro (rfl | ⟨h1, h2⟩)
        · exact ⟨List.mem_cons_self a t, hc⟩
        · exact ⟨List.mem_cons_of_mem c h1,
            fun hs => h2 (List.mem_cons_of_mem c hs)⟩
      · rintro ⟨h1, h2⟩
        by_cases hac : a = c
        · exact Or.inl hac
        · rcases List.mem_cons.mp h1 with rfl | h1
          · exact Or.inl rfl
          · exact Or.inr ⟨h1, fun hs => by
              rcases List.mem_cons.mp hs with h | hs
              · exact hac h
              · exact h2 hs⟩

theorem nodup_dedupAux : ∀ (l seen : List String), (dedupAux seen l).Nodup := by
  intro l
  induction l with
  | nil => intro seen; simp [dedupAux]
  | cons c t ih =>
    intro seen
    by_cases hc : c ∈ seen
    · rw [dedupAux, if_pos hc]
      exact ih seen
    · rw [dedupAux, if_neg hc]
      refine List.nodup_cons.mpr ⟨?_, ih (c :: seen)⟩
      intro hmem
      exact ((mem_dedupAux c t (c :: seen)).mp hmem).2 (List.mem_cons_self c seen)

theorem mem_jsSetDedup (a : String) (l : List String) : a ∈ jsSetDedup l ↔ a ∈ l := by
  rw [jsSetDedup, mem_dedupAux]
  simp

theorem nodup_jsSetDedup (l : List String) : (jsSetDedup l).Nodup :=
  nodup_dedupAux l []

theorem mem_computeAllTags (a : String) (ex : List String) (tag : String) (b : Bool) :
    a ∈ computeAllTags ex tag b ↔
      a ∈ ex ∨ a = "customer" ∨ a = tag ∨ (b = true ∧ a = "returning-customer") := by
  unfold computeAllTags
  by_cases hcond : b = true ∧ "returning-customer" ∉ jsSetDedup (ex ++ ["customer", tag])
  · rw [if_pos hcond]
    rw [List.mem_append, mem_jsSetDedup, List.mem_append]
    simp only [List.mem_cons, List.mem_singleton, List.not_mem_nil, or_false]
    obtain ⟨hb, _⟩ := hcond
    subst hb
    tauto
  · rw [if_neg hcond]
    rw [mem_jsSetDedup, List.mem_append]
    simp only [List.mem_cons, List.not_mem_nil, or_false]
    push_neg at hcond
    constructor
    · tauto
    · rintro (h | h | h | ⟨hb, rfl⟩)
      · tauto
      · tauto
      · tauto
      · have := hcond hb
        rw [mem_jsSetDedup, List.mem_append] at this
        simpa using this

/-- Claim C6: merging a purchase into an existing profile yields exactly
the set union of the existing tags with the base customer tag and the
category-specific tag, plus the returning-customer tag when the purchase
is a true returning one — so no existing tag is ever removed; the
returning-customer tag occurs exactly once in the returning case; and
existing tags customer, main-course receiving a coaching-buyer purchase
end as exactly the set with customer, main-course and coaching-buyer. -/
theorem tag_merge_union (existingTags : List String) (tag : String) (isReturning : Bool) :
    (computeAllTags existingTags tag isReturning).toFinset =
      existingTags.toFinset ∪ {"customer", tag} ∪
        (if isReturning then {"returning-customer"} else ∅)
    ∧ (computeAllTags existingTags tag true).count "returning-customer" = 1
    ∧ (computeAllTags ["customer", "main-course"] "coaching-buyer" false).toFinset =
        ({"customer", "main-course", "coaching-buyer"} : Finset String) := by
  refine ⟨?_, ?_, ?_⟩
  · ext a
    rw [List.mem_toFinset, mem_computeAllTags]
    cases isReturning with
    | false =>
      simp
      tauto
    | true =>
      simp
      tauto
  · unfold computeAllTags
    by_cases hrc : "returning-customer" ∈ jsSetDedup (existingTags ++ ["customer", tag])
    · rw [if_neg (by simp [hrc])]
      exact List.count_eq_one_of_mem (nodup_jsSetDedup _) hrc
    · rw [if_pos ⟨rfl, hrc⟩, List.count_append,
        List.count_eq_zero.mpr hrc]
      simp
  · decide

/-- JavaScript String.prototype.split with a one-character separator, at
the character-list level: always returns at least one (possibly empty)
segment, and a trailing separator yields a trailing empty segment. -/
def splitChars (sep : Char) : List Char → List (List Char)
  | [] => [[]]
  | c :: cs =>
    let r := splitChars sep cs
    if c = sep then [] :: r else (c :: r.headI) :: r.tail

/-- existingNote.split('\n') from src/server.js, at the String level. -/
def splitLines (s : String) : List String :=
  (splitChars '\n' s.toList).map (fun cs => String.mk cs)

/-- Array.prototype.join('\n') from src/server.js. -/
def joinLines : List String → String
  | [] => ""
  | [l] => l
  | l :: ls => l ++ "\n" ++ joinLines ls

/-- JavaScript String.prototype.includes, as list-infix containment of
the pattern's characters in the subject's characters. -/
def strIncludes (hay pat : String) : Bool :=
  decide (pat.toList <:+: hay.toList)

/-- The purchaseData record assembled by sendConfirmationEmail in
src/server.js, restricted to the fields the profile-note and order sinks
read. The dollar amount is carried as its JavaScript template-literal
rendering; the toLocaleDateString value is passed explicitly where the
source reads the wall clock. -/
structure PurchaseData where
  email : String
  product_name : String
  amountStr : String
  purchase_type : String
  payment_intent_id : String
  product_id : String
  is_returning_customer : Bool
deriving DecidableEq

/-- The purchase line template shared by buildCustomerNote and
updateCustomerNote. -/
def newPurchaseLine (d : PurchaseData) (dateStr : String) : String :=
  "- " ++ d.product_name ++ ": $" ++ d.amountStr ++ " (" ++ dateStr ++ ")"

/-- buildCustomerNote from src/server.js. -/
def buildCustomerNote (d : PurchaseData) (dateStr : String) : String :=
  "Purchase History:\n" ++ newPurchaseLine d dateStr ++
  "\n\nPurchase Details:\n- Type: " ++ d.purchase_type ++
  "\n- Payment ID: " ++ d.payment_intent_id ++
  "\n- Product ID: " ++ d.product_id ++
  "\n- Returning Customer: " ++ (if d.is_returning_customer then "Yes" else "No")

/-- updateCustomerNote from src/server.js: a falsy note yields a fresh
note; a note containing "Purchase History:" is split into lines and the
new purchase line is spliced in right after the first line containing the
header; otherwise a fresh Purchase History section is appended. -/
def updateCustomerNote (existingNote : String) (d : PurchaseData) (dateStr : String) : String :=
  let newPurchase := newPurchaseLine d dateStr
  if existingNote = "" then buildCustomerNote d dateStr
  else if strIncludes existingNote "Purchase History:" = true then
    match (splitLines existingNote).findIdx?
        (fun l => strIncludes l "Purchase History:") with
    | some i =>
      joinLines ((splitLines existingNote).take (i + 1) ++
        newPurchase :: (splitLines existingNote).drop (i + 1))
    | none => existingNote ++ "\n\nPurchase History:\n" ++ newPurchase
  else existingNote ++ "\n\nPurchase History:\n" ++ newPurchase

theorem splitChars_cons (sep c : Char) (cs : List Char) :
    splitChars sep (c :: cs) =
      if c = sep then [] :: splitChars sep cs
      else (c :: (splitChars sep cs).headI) :: (splitChars sep cs).tail := rfl

theorem splitChars_ne_nil (sep : Char) (cs : List Char) : splitChars sep cs ≠ [] := by
  cases cs with
  | nil => simp [splitChars]
  | cons c cs =>
    rw [splitChars_cons]
    by_cases hc : c = sep
    · simp [hc]
    · simp [hc]

theorem headI_splitChars_pref (sep : Char) : ∀ cs : List Char,
    (splitChars sep cs).headI <+: cs := by
  intro cs
  induction cs with
  | nil => simp [splitChars]
  | cons c cs ih =>
    rw [splitChars_cons]
    by_cases hc : c = sep
    · rw [if_pos hc]
      exact ⟨c :: cs, rfl⟩
    · rw [if_neg hc]
      simp only [List.headI_cons]
      exact List.cons_prefix_cons.mpr ⟨rfl, ih⟩

theorem pref_headLine (sep : Char) : ∀ (cs pat : List Char),
    pat <+: cs → (∀ ch ∈ pat, ch ≠ sep) → pat <+: (splitChars sep cs).headI := by
  intro cs
  induction cs with
  | nil =>
    intro pat hp _
    rw [List.prefix_nil] at hp
    subst hp
    exact ⟨_, rfl⟩
  | cons c cs ih =>
    intro pat hp hsep
    cases pat with
    | nil => exact ⟨_, rfl⟩
    | cons p ps =>
      obtain ⟨hpc, hps⟩ := List.cons_prefix_cons.mp hp
      subst hpc
      have hcsep : p ≠ sep := hsep p (List.mem_cons_self p ps)
      rw [splitChars_cons, if_neg hcsep]
      simp only [List.headI_cons]
      exact List.cons_prefix_cons.mpr
        ⟨rfl, ih ps hps (fun ch hch => hsep ch (List.mem_cons_of_mem p hch))⟩

theorem infixOf_of_mem_splitChars (sep : Char) : ∀ (cs l : List Char),
    l ∈ splitChars sep cs → l <:+: cs := by
  intro cs
  induction cs with
  | nil =>
    intro l hl
    simp [splitChars] at hl
    subst hl
    exact ⟨[], [], rfl⟩
  | cons c cs ih =>
    intro l hl
    rw [splitChars_cons] at hl
    by_cases hc : c = sep
    · rw [if_pos hc] at hl
      rcases List.mem_cons.mp hl with rfl | hl
      · exact ⟨[], c :: cs, rfl⟩
      · exact List.infix_cons (ih l hl)
    · rw [if_neg hc] at hl
      obtain ⟨h, t, hr⟩ : ∃ h t, splitChars sep cs = h :: t := by
        cases hsc : splitChars sep cs with
        | nil => exact absurd hsc (splitChars_ne_nil sep cs)
        | cons h t => exact ⟨h, t, rfl⟩
      rw [hr] at hl
      simp only [List.headI_cons, List.tail_cons] at hl
      rcases List.mem_cons.mp hl with rfl | hl
      · have hpre : h <+: cs := by
          have := headI_splitChars_pref sep cs
          rwa [hr, List.headI_cons] at this
        exact (List.cons_prefix_cons.mpr ⟨rfl, hpre⟩).isInfix
      · have hmem : l ∈ splitChars sep cs := by
          rw [hr]
          exact List.mem_cons_of_mem h hl
        exact List.infix_cons (ih l hmem)

theorem exists_line_of_infixOf (sep : Char) : ∀ (cs pat : List Char),
    pat ≠ [] → (∀ ch ∈ pat, ch ≠ sep) → pat <:+: cs →
    ∃ l ∈ splitChars sep cs, pat <:+: l := by
  intro cs
  induction cs with
  | nil =>
    intro pat hne _ hinf
    rw [List.infix_nil] at hinf
    exact absurd hinf hne
  | cons c cs ih =>
    intro pat hne hsep hinf
    rcases List.infix_cons_iff.mp hinf with hpre | hinf2
    · obtain ⟨h, t, hr⟩ : ∃ h t, splitChars sep (c :: cs) = h :: t := by
        cases hsc : splitChars sep (c :: cs) with
        | nil => exact absurd hsc (splitChars_ne_nil sep (c :: cs))
        | cons h t => exact ⟨h, t, rfl⟩
      have hhead : pat <+: (splitChars sep (c :: cs)).headI :=
        pref_headLine sep (c :: cs) pat hpre hsep
      refine ⟨(splitChars sep (c :: cs)).headI, ?_, hhead.isInfix⟩
      rw [hr, List.headI_cons]
      exact List.mem_cons_self h t
    · obtain ⟨l, hl, hpl⟩ := ih pat hne hsep hinf2
      by_cases hc : c = sep
      · refine ⟨l, ?_, hpl⟩
        rw [splitChars_cons, if_pos hc]
        exact List.mem_cons_of_mem [] hl
      · obtain ⟨h, t, hr⟩ : ∃ h t, splitChars sep cs = h :: t := by
          cases hsc : splitChars sep cs with
          | nil => exact absurd hsc (splitChars_ne_nil sep cs)
          | cons h t => exact ⟨h, t, rfl⟩
        rw [hr] at hl
        rcases List.mem_cons.mp hl with rfl | hl2
        · refine ⟨c :: l, ?_, List.infix_cons hpl⟩
          rw [splitChars_cons, if_neg hc, hr]
          simp only [List.headI_cons, List.tail_cons]
          exact List.mem_cons_self (c :: l) t
        · refine ⟨l, ?_, hpl⟩
          rw [splitChars_cons, if_neg hc, hr]
          simp only [List.headI_cons, List.tail_cons]
          exact List.mem_cons_of_mem (c :: h) hl2

theorem findIdxIsSome {α : Type} (p : α → Bool) : ∀ (l : List α) (x : α),
    x ∈ l → p x = true → (l.findIdx? p).isSome = true := by
  intro l
  induction l with
  | nil =>
    intro x hx
    exact absurd hx (List.not_mem_nil x)
  | cons a t ih =>
    intro x hx hp
    rw [List.findIdx?_cons]
    by_cases ha : p a = true
    · simp [ha]
    · rcases List.mem_cons.mp hx with rfl | hx2
      · exact absurd hp ha
      · rw [if_neg ha]
        have := ih x hx2 hp
        cases hfi : t.findIdx? p with
        | none => rw [hfi] at this; exact absurd this (by simp)
        | some j => simp [hfi]

/-- Claim C7: when an existing note contains the "Purchase History:"
header, updateCustomerNote splices the new purchase line in immediately
after the first line containing the header, so the result's lines are the
old lines with one line inserted and every prior line is preserved
verbatim and in order (the old line list is a sublist of the new one);
when the header is absent the old note is kept whole and a fresh Purchase
History section holding the line is appended after it. No line is ever
rewritten, removed or deduplicated. -/
theorem note_append_only (note : String) (d : PurchaseData) (dateStr : String)
    (hne : note ≠ "") :
    (strIncludes note "Purchase History:" = true →
      ∃ i, (splitLines note).findIdx? (fun l => strIncludes l "Purchase History:") = some i ∧
        updateCustomerNote note d dateStr =
          joinLines ((splitLines note).take (i + 1) ++
            newPurchaseLine d dateStr :: (splitLines note).drop (i + 1)) ∧
        (splitLines note).Sublist ((splitLines note).take (i + 1) ++
          newPurchaseLine d dateStr :: (splitLines note).drop (i + 1)))
    ∧ (strIncludes note "Purchase History:" = false →
      updateCustomerNote note d dateStr =
        note ++ "\n\nPurchase History:\n" ++ newPurchaseLine d dateStr) := by
  constructor
  · intro hinc
    have hinf : ("Purchase History:").toList <:+: note.toList := of_decide_eq_true hinc
    obtain ⟨lc, hlc, hplc⟩ := exists_line_of_infixOf '\n' note.toList
      ("Purchase History:").toList (by decide) (by decide) hinf
    have hmem : String.mk lc ∈ splitLines note := List.mem_map_of_mem _ hlc
    have hline : strIncludes (String.mk lc) "Purchase History:" = true :=
      decide_eq_true hplc
    have hsome := findIdxIsSome (fun l => strIncludes l "Purchase History:")
      (splitLines note) (String.mk lc) hmem hline
    obtain ⟨i, hi⟩ := Option.isSome_iff_exists.mp hsome
    refine ⟨i, hi, ?_, ?_⟩
    · rw [updateCustomerNote]
      simp only [if_neg hne, hinc, if_pos, hi]
    · conv_lhs => rw [← List.take_append_drop (i + 1) (splitLines note)]
      exact List.Sublist.append (List.Sublist.refl _) (List.sublist_cons_self _ _)
  · intro hninc
    simp [updateCustomerNote, hne, hninc]

/-- Witness for Claim C7: a concrete two-line note whose first line is
the header receives the new purchase line right below the header. -/
theorem note_append_only_witness :
    ∃ i, (splitLines "Purchase History:\n- Old: $1 (1/1/2025)").findIdx?
        (fun l => strIncludes l "Purchase History:") = some i ∧
      updateCustomerNote "Purchase History:\n- Old: $1 (1/1/2025)"
          ⟨"a@x.com", "P", "47", "main_course", "ch_1", "prod_1", false⟩ "2/2/2025" =
        joinLines ((splitLines "Purchase History:\n- Old: $1 (1/1/2025)").take (i + 1) ++
          newPurchaseLine ⟨"a@x.com", "P", "47", "main_course", "ch_1", "prod_1", false⟩
            "2/2/2025" :: (splitLines "Purchase History:\n- Old: $1 (1/1/2025)").drop (i + 1)) ∧
      (splitLines "Purchase History:\n- Old: $1 (1/1/2025)").Sublist
        ((splitLines "Purchase History:\n- Old: $1 (1/1/2025)").take (i + 1) ++
          newPurchaseLine ⟨"a@x.com", "P", "47", "main_course", "ch_1", "prod_1", false⟩
            "2/2/2025" :: (splitLines "Purchase History:\n- Old: $1 (1/1/2025)").drop (i + 1)) :=
  (note_append_only "Purchase History:\n- Old: $1 (1/1/2025)"
    ⟨"a@x.com", "P", "47", "main_course", "ch_1", "prod_1", false⟩ "2/2/2025"
    (by decide)).1 (by decide)

/-- An order as created by createShopifyOrder: the charge id is only
embedded in the order's note text for string correlation; there is no
idempotency key. -/
structure OrderRecord where
  email : String
  payment_intent_id : String
deriving DecidableEq

/-- The remote state the two Shopify sinks mutate for one customer: the
orders created so far and the customer profile note. -/
structure PipelineState where
  orders : List OrderRecord
  customerNote : String
deriving DecidableEq

/-- One pass of the post-purchase pipeline over the remote state, in the
happy path (credentials configured, remote calls succeed):
createShopifyOrder appends a new order without looking up an existing
order for the charge id, and createOrUpdateShopifyCustomer rewrites the
profile note through updateCustomerNote. -/
def processPurchaseEvent (s : PipelineState) (d : PurchaseData) (dateStr : String) :
    PipelineState :=
  { orders := s.orders ++ [⟨d.email, d.payment_intent_id⟩],
    customerNote := updateCustomerNote s.customerNote d dateStr }

/-- The literal replay event of Claim C1: charge ch_1, a@x.com, 4700
minor units (47 dollars), main purchase. -/
def replayEvent : PurchaseData :=
  ⟨"a@x.com", "Black Sheep Business Program", "47", "main_course", "ch_1",
    "prod_SfYipzYOk3rdyN", false⟩

/-- Claim C1 is violated by the code: processing the ch_1 purchase event
twice through the post-purchase pipeline creates two order records for
ch_1 and two copies of its purchase line in the profile note — no
idempotency check exists on the charge id, so processing twice is not
processing once. -/
theorem replay_duplicates_order_and_note :
    ((processPurchaseEvent (processPurchaseEvent ⟨[], ""⟩ replayEvent "8/1/2025")
        replayEvent "8/1/2025").orders.filter
      (fun o => decide (o.payment_intent_id = "ch_1"))).length = 2
    ∧ (splitLines (processPurchaseEvent (processPurchaseEvent ⟨[], ""⟩ replayEvent "8/1/2025")
        replayEvent "8/1/2025").customerNote).count
      (newPurchaseLine replayEvent "8/1/2025") = 2 := by
  constructor
  · rfl
  · decide

/-- Outcome of one settled promise in Promise.allSettled. -/
inductive Settled
  | fulfilled
  | rejected (msg : String)
deriving DecidableEq

/-- Promise.allSettled over sinks modelled as state transformers on the
external systems' state that either fulfill or reject: every task runs to
completion and its outcome is recorded; no rejection escapes. -/
def allSettled {σ : Type} : List (σ → σ × Except String Unit) → σ → σ × List Settled
  | [], s => (s, [])
  | f :: fs, s =>
    let r := f s
    let rest := allSettled fs r.1
    (rest.1,
      (match r.2 with
       | Except.ok _ => Settled.fulfilled
       | Except.error e => Settled.rejected e) :: rest.2)

/-- The fan-out of sendConfirmationEmail in src/server.js: await
Promise.allSettled of createOrUpdateShopifyCustomer, createShopifyOrder
and sendEmailConfirmation over the purchase data; the function itself
resolves regardless of the individual sink outcomes. -/
def sendConfirmationEmailFanOut {σ : Type}
    (profileMerger orderRecorder emailSink : σ → σ × Except String Unit) (s : σ) :
    σ × Except String Unit :=
  ((allSettled [profileMerger, orderRecorder, emailSink] s).1, Except.ok ())

/-- Claim C8: the fan-out coordinator invokes the profile merger, the
order recorder and the email sink, waits for all three to settle, and
resolves successfully whatever each sink returned — in particular when
the commerce-platform sink rejects, the other two sinks' effects still
land in the final state, the rejection is only recorded among the settled
outcomes, and the pipeline reports acceptance. -/
theorem fanout_isolation {σ : Type}
    (profileMerger orderRecorder emailSink : σ → σ × Except String Unit) (s : σ) :
    sendConfirmationEmailFanOut profileMerger orderRecorder emailSink s =
      ((emailSink (orderRecorder (profileMerger s).1).1).1, Except.ok ())
    ∧ (allSettled [profileMerger, orderRecorder, emailSink] s).2.length = 3
    ∧ ∀ e, (orderRecorder (profileMerger s).1).2 = Except.error e →
        (allSettled [profileMerger, orderRecorder, emailSink] s).2 =
          [(match (profileMerger s).2 with
            | Except.ok _ => Settled.fulfilled
            | Except.error m => Settled.rejected m),
           Settled.rejected e,
           (match (emailSink (orderRecorder (profileMerger s).1).1).2 with
            | Except.ok _ => Settled.fulfilled
            | Except.error m => Settled.rejected m)] := by
  refine ⟨rfl, rfl, ?_⟩
  intro e he
  simp [allSettled, he]

/-- Witness for Claim C8 on the concrete pipeline state: the order sink
rejects, yet the profile merge and email sink still run and the fan-out
reports acceptance. -/
theorem fanout_isolation_witness :
    sendConfirmationEmailFanOut
      (fun s : PipelineState => ({ s with customerNote := "merged" }, Except.ok ()))
      (fun s : PipelineState => (s, Except.error "Shopify order creation failed: 500"))
      (fun s : PipelineState => (s, Except.ok ())) ⟨[], ""⟩ =
      (⟨[], "merged"⟩, Except.ok ())
    ∧ (allSettled
      [(fun s : PipelineState => ({ s with customerNote := "merged" }, Except.ok ())),
       (fun s : PipelineState => (s, Except.error "Shopify order creation failed: 500")),
       (fun s : PipelineState => (s, Except.ok ()))] ⟨[], ""⟩).2 =
      [Settled.fulfilled, Settled.rejected "Shopify order creation failed: 500",
        Settled.fulfilled] := by
  have h := fanout_isolation
    (fun s : PipelineState => ({ s with customerNote := "merged" }, Except.ok ()))
    (fun s : PipelineState => (s, Except.error "Shopify order creation failed: 500"))
    (fun s : PipelineState => (s, Except.ok ())) ⟨[], ""⟩
  exact ⟨h.1, h.2.2 "Shopify order creation failed: 500" rfl⟩

/-- The money fields of the order payload built by createShopifyOrder:
the sale transaction's amount is (data.amount * 100) rendered with
toString, while total_price, subtotal_price and the line-item price are
data.amount rendered with toFixed(2); the numeric values behind those
renderings are modelled as rationals. -/
structure OrderPayloadAmounts where
  transactionAmount : ℚ
  totalPrice : ℚ
  subtotalPrice : ℚ
  lineItemPrice : ℚ
  totalTax : ℚ
deriving DecidableEq

/-- The payload construction in createShopifyOrder from src/server.js. -/
def createShopifyOrderAmounts (amountDollars : ℚ) : OrderPayloadAmounts :=
  ⟨amountDollars * 100, amountDollars, amountDollars, amountDollars, 0⟩

/-- sendConfirmationEmail computes data.amount as
paymentIntent.amount / 100 (the processor's minor units to dollars). -/
def stripeAmountToDollars (paymentIntentAmount : ℤ) : ℚ :=
  (paymentIntentAmount : ℚ) / 100

/-- Claim C10: in every order payload, the sale transaction's amount
equals 100 times the order's total_price: for a charge of n minor units
the transaction field records n (dollars times 100) while total_price
records n / 100 dollars, a permanent factor-100 disagreement. -/
theorem transaction_amount_factor_100 (paymentIntentAmount : ℤ) :
    (createShopifyOrderAmounts (stripeAmountToDollars paymentIntentAmount)).transactionAmount =
      100 * (createShopifyOrderAmounts (stripeAmountToDollars paymentIntentAmount)).totalPrice
    ∧ (createShopifyOrderAmounts (stripeAmountToDollars paymentIntentAmount)).transactionAmount =
        (paymentIntentAmount : ℚ)
    ∧ (createShopifyOrderAmounts (stripeAmountToDollars paymentIntentAmount)).totalPrice =
        (paymentIntentAmount : ℚ) / 100 := by
  refine ⟨?_, ?_, rfl⟩
  · show stripeAmountToDollars paymentIntentAmount * 100 =
      100 * stripeAmountToDollars paymentIntentAmount
    ring
  · show stripeAmountToDollars paymentIntentAmount * 100 = (paymentIntentAmount : ℚ)
    rw [stripeAmountToDollars]
    exact div_mul_cancel₀ _ (by norm_num)

/-- One entry of the in-memory requestCounts map. -/
structure RateEntry where
  count : ℕ
  firstRequest : ℤ
deriving DecidableEq

/-- The 15-minute window of rateLimit, in milliseconds. -/
def windowMs : ℤ := 15 * 60 * 1000

/-- The request cap of rateLimit. -/
def maxRequests : ℕ := 10

/-- The expired-entry cleanup loop at the top of rateLimit: entries whose
window has lapsed are deleted. -/
def cleanupEntries (m : List (String × RateEntry)) (now : ℤ) : List (String × RateEntry) :=
  m.filter (fun p => decide (now - p.2.firstRequest ≤ windowMs))

/-- requestCounts.get, on the association-list model of the Map. -/
def mapGet (m : List (String × RateEntry)) (k : String) : Option RateEntry :=
  (m.find? (fun p => decide (p.1 = k))).map (fun p => p.2)

/-- requestCounts.set: replace the entry when the key is present, else
append it. -/
def mapSet (m : List (String × RateEntry)) (k : String) (v : RateEntry) :
    List (String × RateEntry) :=
  if (m.find? (fun p => decide (p.1 = k))).isSome then
    m.map (fun p => if p.1 = k then (k, v) else p)
  else m ++ [(k, v)]

/-- The update applied to the caller's entry: reset when its own window
has lapsed, else bump the count. -/
def updateEntry (current : RateEntry) (now : ℤ) : RateEntry :=
  if windowMs < now - current.firstRequest then ⟨1, now⟩
  else ⟨current.count + 1, current.firstRequest⟩

/-- rateLimit from src/server.js: prune expired entries, load or create
the caller's entry, apply updateEntry, store it back, and admit iff the
updated count does not exceed maxRequests (else the 429 response). -/
def rateLimit (m : List (String × RateEntry)) (ip : String) (now : ℤ) :
    List (String × RateEntry) × Bool :=
  (mapSet (cleanupEntries m now) ip
      (updateEntry ((mapGet (cleanupEntries m now) ip).getD ⟨0, now⟩) now),
   decide ((updateEntry ((mapGet (cleanupEntries m now) ip).getD ⟨0, now⟩) now).count ≤
     maxRequests))

/-- Run a sequence of (origin, time) requests through rateLimit,
collecting the admission verdicts and the final map. -/
def runRateLimit (m : List (String × RateEntry)) :
    List (String × ℤ) → List Bool × List (String × RateEntry)
  | [] => ([], m)
  | (ip, t) :: rest =>
    let r := rateLimit m ip t
    let rr := runRateLimit r.1 rest
    (r.2 :: rr.1, rr.2)

theorem updateEntry_fresh (t : ℤ) : updateEntry ⟨0, t⟩ t = ⟨1, t⟩ := by
  rw [updateEntry, if_neg]
  simp [windowMs]

theorem updateEntry_bump (c : ℕ) (f t : ℤ) (h1 : t - f ≤ windowMs) :
    updateEntry ⟨c, f⟩ t = ⟨c + 1, f⟩ := by
  rw [updateEntry, if_neg (not_lt.mpr h1)]

theorem rateLimit_first (ip : String) (t : ℤ) :
    rateLimit [] ip t = ([(ip, ⟨1, t⟩)], true) := by
  have hclean : cleanupEntries [] t = [] := rfl
  have hget : mapGet [] ip = none := rfl
  rw [rateLimit, hclean, hget, Option.getD_none, updateEntry_fresh]
  rw [show mapSet [] ip ⟨1, t⟩ = [(ip, ⟨1, t⟩)] from rfl]
  rfl

theorem rateLimit_same (ip : String) (c : ℕ) (f t : ℤ) (h1 : t - f ≤ windowMs) :
    rateLimit [(ip, ⟨c, f⟩)] ip t =
      ([(ip, ⟨c + 1, f⟩)], decide (c + 1 ≤ maxRequests)) := by
  have hb : decide (t - (⟨c, f⟩ : RateEntry).firstRequest ≤ windowMs) = true :=
    decide_eq_true h1
  have hclean : cleanupEntries [(ip, ⟨c, f⟩)] t = [(ip, ⟨c, f⟩)] := by
    rw [cleanupEntries, List.filter_cons, if_pos hb]
    rfl
  have hget : mapGet [(ip, ⟨c, f⟩)] ip = some ⟨c, f⟩ := by
    simp [mapGet, List.find?]
  have hset : mapSet [(ip, ⟨c, f⟩)] ip ⟨c + 1, f⟩ = [(ip, ⟨c + 1, f⟩)] := by
    simp [mapSet, List.find?]
  rw [rateLimit, hclean, hget, Option.getD_some, updateEntry_bump c f t h1, hset]

theorem rateLimit_other (a : String) (e : RateEntry) (b : String) (t : ℤ)
    (hne : a ≠ b) (hkeep : t - e.firstRequest ≤ windowMs) :
    rateLimit [(a, e)] b t = ([(a, e), (b, ⟨1, t⟩)], true) := by
  have hb : decide (t - e.firstRequest ≤ windowMs) = true := decide_eq_true hkeep
  have hclean : cleanupEntries [(a, e)] t = [(a, e)] := by
    rw [cleanupEntries, List.filter_cons, if_pos hb]
    rfl
  have hget : mapGet [(a, e)] b = none := by
    simp [mapGet, List.find?, hne]
  have hset : mapSet [(a, e)] b ⟨1, t⟩ = [(a, e), (b, ⟨1, t⟩)] := by
    simp [mapSet, List.find?, hne]
  rw [rateLimit, hclean, hget, Option.getD_none, updateEntry_fresh, hset]
  rfl

theorem runRateLimit_nil (m : List (String × RateEntry)) :
    runRateLimit m [] = ([], m) := rfl

theorem runRateLimit_cons (m : List (String × RateEntry)) (ip : String) (t : ℤ)
    (rest : List (String × ℤ)) :
    runRateLimit m ((ip, t) :: rest) =
      ((rateLimit m ip t).2 :: (runRateLimit (rateLimit m ip t).1 rest).1,
       (runRateLimit (rateLimit m ip t).1 rest).2) := rfl

theorem run_same (ip : String) (f : ℤ) : ∀ (ts : List ℤ) (c : ℕ),
    (∀ t ∈ ts, t - f ≤ windowMs) →
    runRateLimit [(ip, ⟨c, f⟩)] (ts.map (fun t => (ip, t))) =
      ((List.range ts.length).map (fun i => decide (c + i + 1 ≤ maxRequests)),
       [(ip, ⟨c + ts.length, f⟩)]) := by
  intro ts
  induction ts with
  | nil =>
    intro c h
    simp [runRateLimit]
  | cons t ts ih =>
    intro c h
    rw [List.map_cons, runRateLimit]
    rw [rateLimit_same ip c f t (h t (List.mem_cons_self t ts))]
    rw [ih (c + 1) (fun x hx => h x (List.mem_cons_of_mem t hx))]
    simp only [Prod.mk.injEq]
    constructor
    · rw [List.length_cons, List.range_succ_eq_map, List.map_cons, List.map_map]
      congr 1
      apply List.map_congr_left
      intro i _
      simp only [Function.comp_apply]
      rw [show c + Nat.succ i + 1 = c + 1 + i + 1 from by omega]
    · rw [List.length_cons]
      have harith : c + 1 + ts.length = c + (ts.length + 1) := by omega
      rw [harith]

theorem runRateLimit_append (xs ys : List (String × ℤ)) : ∀ m,
    runRateLimit m (xs ++ ys) =
      ((runRateLimit m xs).1 ++ (runRateLimit (runRateLimit m xs).2 ys).1,
       (runRateLimit (runRateLimit m xs).2 ys).2) := by
  induction xs with
  | nil =>
    intro m
    simp [runRateLimit]
  | cons x xs ih =>
    intro m
    obtain ⟨ip, t⟩ := x
    simp [runRateLimit, ih]

/-- Claim C9: starting from an empty map, a single origin issuing 11
requests inside one 15-minute window is admitted on the first 10 and
receives the 429 verdict on the 11th, and a 12th request from a distinct
origin inside the same window is admitted — the per-origin counters are
independent. -/
theorem rate_limit_window (ip1 ip2 : String) (t0 t12 : ℤ) (ts : List ℤ)
    (hlen : ts.length = 10)
    (hwin : ∀ t ∈ ts, t - t0 ≤ windowMs)
    (hwin12 : t12 - t0 ≤ windowMs)
    (hne : ip1 ≠ ip2) :
    (runRateLimit [] ((ip1, t0) :: ts.map (fun t => (ip1, t)) ++ [(ip2, t12)])).1 =
      List.replicate 10 true ++ [false, true] := by
  rw [runRateLimit_append, runRateLimit_cons]
  simp only [rateLimit_first ip1 t0]
  rw [run_same ip1 t0 ts 1 hwin, hlen]
  simp only [runRateLimit_cons, runRateLimit_nil]
  rw [rateLimit_other ip1 ⟨1 + 10, t0⟩ ip2 t12 hne hwin12]
  dsimp only
  decide

/-- Witness for Claim C9 at concrete origins and times 0..11 within one
window. -/
theorem rate_limit_window_witness :
    (runRateLimit [] (("1.2.3.4", (0 : ℤ)) ::
        ([1, 2, 3, 4, 5, 6, 7, 8, 9, 10] : List ℤ).map (fun t => ("1.2.3.4", t)) ++
        [("5.6.7.8", 11)])).1 =
      List.replicate 10 true ++ [false, true] :=
  rate_limit_window "1.2.3.4" "5.6.7.8" 0 11 [1, 2, 3, 4, 5, 6, 7, 8, 9, 10]
    (by decide) (by decide) (by decide) (by decide)

end Server
